import Mathlib

/-!
Verification of the DIN99 colourspace transform pair from
`colour/models/din99.py` (`Lab_to_DIN99` and `DIN99_to_Lab`).

The two Python functions are pure elementwise maps over triples of real
numbers; they are embedded here over `ℝ`, with `np.arctan2` modelled as the
argument of a complex number (range `(-π, π]`, `arctan2 0 0 = 0`, matching
the numpy convention on reals) and `np.log` / `np.exp` / `np.sqrt` as the
corresponding real functions.
-/

/-- Degree-to-radian conversion, as in `np.radians`. -/
noncomputable def radians (d : ℝ) : ℝ := d * Real.pi / 180

/-- The constant `np.cos(np.radians(16))`, computed identically in both
transforms of the source. -/
noncomputable def cos_16 : ℝ := Real.cos (radians 16)

/-- The constant `np.sin(np.radians(16))`, computed identically in both
transforms of the source. -/
noncomputable def sin_16 : ℝ := Real.sin (radians 16)

/-- Two-argument arctangent `np.arctan2 y x`, realised as the argument of
the complex number with real part `x` and imaginary part `y`.  Its range is
`(-π, π]` and `arctan2 0 0 = 0`, as for numpy on exact reals. -/
noncomputable def arctan2 (y x : ℝ) : ℝ := Complex.arg ⟨x, y⟩

/-- `Lab_to_DIN99` from `colour/models/din99.py`, on a single triple
`(L, a, b)`.  The source computes `G = (e ** 2 + f ** 2) ** 0.5`, which on
the nonnegative quantity `e ^ 2 + f ^ 2` is the square root. -/
noncomputable def Lab_to_DIN99 (Lab : ℝ × ℝ × ℝ) (k_E k_CH : ℝ) : ℝ × ℝ × ℝ :=
  let L := Lab.1
  let a := Lab.2.1
  let b := Lab.2.2
  let e := cos_16 * a + sin_16 * b
  let f := 0.7 * (-sin_16 * a + cos_16 * b)
  let G := Real.sqrt (e ^ 2 + f ^ 2)
  let h_ef := arctan2 f e
  let C_99 := Real.log (1 + 0.045 * G) / (0.045 * k_CH * k_E)
  let a_99 := C_99 * Real.cos h_ef
  let b_99 := C_99 * Real.sin h_ef
  let L_99 := 105.509 * Real.log (1 + 0.0158 * L) * k_E
  (L_99, a_99, b_99)

/-- `DIN99_to_Lab` from `colour/models/din99.py`, on a single triple
`(L99, a99, b99)`. -/
noncomputable def DIN99_to_Lab (Lab_99 : ℝ × ℝ × ℝ) (k_E k_CH : ℝ) : ℝ × ℝ × ℝ :=
  let L_99 := Lab_99.1
  let a_99 := Lab_99.2.1
  let b_99 := Lab_99.2.2
  let h_99 := arctan2 b_99 a_99
  let C_99 := Real.sqrt (a_99 ^ 2 + b_99 ^ 2)
  let G := (Real.exp (0.045 * C_99 * k_CH * k_E) - 1) / 0.045
  let e := G * Real.cos h_99
  let f := G * Real.sin h_99
  let a := e * cos_16 - (f / 0.7) * sin_16
  let b := e * sin_16 + (f / 0.7) * cos_16
  let L := (Real.exp (L_99 * k_E / 105.509) - 1) / 0.0158
  (L, a, b)

/-! Helper lemmas about the polar decomposition used by the two transforms. -/

lemma abs_mk_eq_sqrt (e f : ℝ) :
    Complex.abs ⟨e, f⟩ = Real.sqrt (e ^ 2 + f ^ 2) := by
  rw [Complex.abs_apply, Complex.normSq_mk, pow_two, pow_two]

lemma sqrt_mul_cos_arctan2 (f e : ℝ) :
    Real.sqrt (e ^ 2 + f ^ 2) * Real.cos (arctan2 f e) = e := by
  simpa [arctan2, abs_mk_eq_sqrt] using Complex.abs_mul_cos_arg ⟨e, f⟩

lemma sqrt_mul_sin_arctan2 (f e : ℝ) :
    Real.sqrt (e ^ 2 + f ^ 2) * Real.sin (arctan2 f e) = f := by
  simpa [arctan2, abs_mk_eq_sqrt] using Complex.abs_mul_sin_arg ⟨e, f⟩

lemma arctan2_mem_Ioc (y x : ℝ) : arctan2 y x ∈ Set.Ioc (-Real.pi) Real.pi :=
  ⟨Complex.neg_pi_lt_arg _, Complex.arg_le_pi _⟩

lemma sqrt_polar (C h : ℝ) (hC : 0 ≤ C) :
    Real.sqrt ((C * Real.cos h) ^ 2 + (C * Real.sin h) ^ 2) = C := by
  have hs : (C * Real.cos h) ^ 2 + (C * Real.sin h) ^ 2 = C ^ 2 := by
    have hpy := Real.sin_sq_add_cos_sq h
    nlinarith [hpy]
  rw [hs, Real.sqrt_sq hC]

lemma arctan2_polar (C h : ℝ) (hC : 0 < C) (hh : h ∈ Set.Ioc (-Real.pi) Real.pi) :
    arctan2 (C * Real.sin h) (C * Real.cos h) = h := by
  have hz : (⟨C * Real.cos h, C * Real.sin h⟩ : ℂ)
      = (C : ℂ) * (Complex.cos h + Complex.sin h * Complex.I) := by
    apply Complex.ext <;>
      simp [Complex.cos_ofReal_re, Complex.sin_ofReal_re]
  rw [arctan2, hz, Complex.arg_mul_cos_add_sin_mul_I hC hh]

/-- The `a` and `b` channels survive the forward-inverse composition exactly,
for every `k_CH * k_E > 0` and independently of `L`. -/
lemma roundtrip_chroma (L a b k_E k_CH : ℝ) (hk : 0 < k_CH * k_E) :
    (DIN99_to_Lab (Lab_to_DIN99 (L, a, b) k_E k_CH) k_E k_CH).2 = (a, b) := by
  have hpy : cos_16 ^ 2 + sin_16 ^ 2 = 1 := Real.cos_sq_add_sin_sq (radians 16)
  have hd : (0:ℝ) < 0.045 * k_CH * k_E := by nlinarith
  simp only [Lab_to_DIN99, DIN99_to_Lab]
  set e := cos_16 * a + sin_16 * b with he
  set f := 0.7 * (-sin_16 * a + cos_16 * b) with hf
  set G := Real.sqrt (e ^ 2 + f ^ 2) with hG
  set h := arctan2 f e with hh
  set C := Real.log (1 + 0.045 * G) / (0.045 * k_CH * k_E) with hC
  have hGnn : 0 ≤ G := Real.sqrt_nonneg _
  have hCnn : 0 ≤ C := div_nonneg (Real.log_nonneg (by linarith)) hd.le
  rw [sqrt_polar C h hCnn]
  have harg : 0.045 * C * k_CH * k_E = Real.log (1 + 0.045 * G) := by
    rw [hC]
    field_simp
    ring
  rw [harg, Real.exp_log (by linarith : (0:ℝ) < 1 + 0.045 * G)]
  have hG' : (1 + 0.045 * G - 1) / 0.045 = G := by ring
  rw [hG']
  rcases eq_or_lt_of_le hCnn with hC0 | hCpos
  · -- degenerate case: the compressed chroma is zero, so the whole chromatic
    -- vector was zero to begin with
    have hlog0 : Real.log (1 + 0.045 * G) = 0 := by
      rw [← harg, ← hC0]
      ring
    have hG0 : G = 0 := by
      rcases Real.log_eq_zero.mp hlog0 with h1 | h1 | h1 <;> linarith
    have hef : e ^ 2 + f ^ 2 ≤ 0 := by
      rw [hG] at hG0
      exact Real.sqrt_eq_zero'.mp hG0
    have he0 : e = 0 := by nlinarith [sq_nonneg e, sq_nonneg f]
    have hf0 : f = 0 := by nlinarith [sq_nonneg e, sq_nonneg f]
    have hee : cos_16 * a + sin_16 * b = 0 := by rw [← he]; exact he0
    have hff : -sin_16 * a + cos_16 * b = 0 := by
      have := hf0
      rw [hf] at this
      linarith
    rw [hG0, Prod.mk.injEq]
    constructor
    · linear_combination (-cos_16) * hee + sin_16 * hff + a * hpy
    · linear_combination (-sin_16) * hee - cos_16 * hff + b * hpy
  · -- nondegenerate case: the hue angle is reproduced exactly
    rw [arctan2_polar C h hCpos (hh ▸ arctan2_mem_Ioc f e)]
    rw [hG, hh, sqrt_mul_cos_arctan2, sqrt_mul_sin_arctan2]
    rw [he, hf, Prod.mk.injEq]
    constructor
    · linear_combination a * hpy
    · linear_combination b * hpy

/-- Claim C1, counterexample: the two functions are not inverses for every
`k_E > 0`.  At the in-domain input `(100, 0, 0)` with `k_E = 2`, `k_CH = 1`
the round trip multiplies the lightness log-compression by `k_E` twice
(once in each direction), so the recovered lightness is
`(2.58 ^ 4 - 1) / 0.0158`, not `100`. -/
theorem C1_roundtrip_counterexample :
    (0:ℝ) < 2 ∧ (0:ℝ) < 1 ∧ (0:ℝ) < 1 + 0.0158 * 100 ∧
    DIN99_to_Lab (Lab_to_DIN99 ((100:ℝ), 0, 0) 2 1) 2 1 ≠ ((100:ℝ), 0, 0) := by
  refine ⟨by norm_num, by norm_num, by norm_num, fun hcontra => ?_⟩
  have h1 := congrArg Prod.fst hcontra
  simp only [Lab_to_DIN99, DIN99_to_Lab] at h1
  rw [show (1:ℝ) + 0.0158 * 100 = 2.58 by norm_num] at h1
  rw [show (105.509:ℝ) * Real.log 2.58 * 2 * 2 / 105.509 = 4 * Real.log 2.58 by ring] at h1
  rw [show (4:ℝ) * Real.log 2.58 = Real.log (2.58 ^ (4:ℕ)) by rw [Real.log_pow]; norm_num] at h1
  rw [Real.exp_log (by norm_num : (0:ℝ) < 2.58 ^ (4:ℕ))] at h1
  norm_num at h1

/-- With `k_E = 1` and any `k_CH > 0` the two transforms are exact inverses
on every in-domain input. -/
lemma roundtrip_kE_one (L a b k_CH : ℝ) (hkCH : 0 < k_CH)
    (hdom : 0 < 1 + 0.0158 * L) :
    DIN99_to_Lab (Lab_to_DIN99 (L, a, b) 1 k_CH) 1 k_CH = (L, a, b) := by
  have hab := roundtrip_chroma L a b 1 k_CH (by nlinarith)
  have hL : (DIN99_to_Lab (Lab_to_DIN99 (L, a, b) 1 k_CH) 1 k_CH).1 = L := by
    show (Real.exp (105.509 * Real.log (1 + 0.0158 * L) * 1 * 1 / 105.509) - 1) / 0.0158 = L
    rw [show (105.509:ℝ) * Real.log (1 + 0.0158 * L) * 1 * 1 / 105.509
        = Real.log (1 + 0.0158 * L) by ring]
    rw [Real.exp_log hdom]
    ring
  exact Prod.ext hL hab

/-- Claim C1, amended: with `k_E = 1` (and any `k_CH > 0`) the two functions
are exact algebraic inverses on every in-domain input
(`1 + 0.0158 * L > 0`). -/
theorem C1_roundtrip_kE_one (L a b k_CH : ℝ) (hkCH : 0 < k_CH)
    (hdom : 0 < 1 + 0.0158 * L) :
    DIN99_to_Lab (Lab_to_DIN99 (L, a, b) 1 k_CH) 1 k_CH = (L, a, b) :=
  roundtrip_kE_one L a b k_CH hkCH hdom

/-- Witness for the amended claim C1 at the concrete in-domain input
`(50, 3, -4)` with `k_CH = 2`. -/
theorem C1_roundtrip_kE_one_witness :
    (0:ℝ) < 2 ∧ (0:ℝ) < 1 + 0.0158 * 50 ∧
    DIN99_to_Lab (Lab_to_DIN99 ((50:ℝ), 3, -4) 1 2) 1 2 = ((50:ℝ), 3, -4) :=
  ⟨by norm_num, by norm_num,
    C1_roundtrip_kE_one 50 3 (-4) 2 (by norm_num) (by norm_num)⟩

/-- Claim C3: the chroma expansion of `DIN99_to_Lab` is the exact inverse of
the chroma compression of `Lab_to_DIN99` for all `k_E, k_CH > 0`, and
consequently the `a` and `b` channels of the round trip reproduce the input
exactly, independently of `L`. -/
theorem C3_chroma_inverse :
    (∀ (G k_E k_CH : ℝ), 0 ≤ G → 0 < k_E → 0 < k_CH →
      (Real.exp (0.045 * (Real.log (1 + 0.045 * G) / (0.045 * k_CH * k_E)) * k_CH * k_E) - 1)
          / 0.045 = G) ∧
    ∀ (L a b k_E k_CH : ℝ), 0 < k_E → 0 < k_CH →
      (DIN99_to_Lab (Lab_to_DIN99 (L, a, b) k_E k_CH) k_E k_CH).2 = (a, b) := by
  constructor
  · intro G k_E k_CH hG hkE hkCH
    rw [show (0.045:ℝ) * (Real.log (1 + 0.045 * G) / (0.045 * k_CH * k_E)) * k_CH * k_E
        = Real.log (1 + 0.045 * G) by field_simp; ring]
    rw [Real.exp_log (by linarith)]
    ring
  · intro L a b k_E k_CH hkE hkCH
    exact roundtrip_chroma L a b k_E k_CH (mul_pos hkCH hkE)

/-- Witness for claim C3: the abstract inverse identity at `G = 2`,
`k_E = k_CH = 1`, and the channel round trip at `(5, 1, -1)` with `k_E = 2`,
`k_CH = 3`. -/
theorem C3_chroma_inverse_witness :
    ((0:ℝ) ≤ 2 ∧ (0:ℝ) < 1 ∧
      (Real.exp (0.045 * (Real.log (1 + 0.045 * 2) / (0.045 * 1 * 1)) * 1 * 1) - 1)
          / 0.045 = 2) ∧
    ((0:ℝ) < 2 ∧ (0:ℝ) < 3 ∧
      (DIN99_to_Lab (Lab_to_DIN99 ((5:ℝ), 1, -1) 2 3) 2 3).2 = ((1:ℝ), -1)) :=
  ⟨⟨by norm_num, by norm_num,
      C3_chroma_inverse.1 2 1 1 (by norm_num) (by norm_num) (by norm_num)⟩,
   ⟨by norm_num, by norm_num,
      C3_chroma_inverse.2 5 1 (-1) 2 3 (by norm_num) (by norm_num)⟩⟩

/-- A logarithm that surfaces the domain error of `np.log` on nonpositive
arguments (numpy emits NaN or a negative-infinity signal there instead of a
finite value) as `none`. -/
noncomputable def safe_log (x : ℝ) : Option ℝ :=
  if 0 < x then some (Real.log x) else none

/-- A square root that surfaces the domain error of `np.sqrt` on negative
arguments (NaN in numpy) as `none`. -/
noncomputable def safe_sqrt (x : ℝ) : Option ℝ :=
  if 0 ≤ x then some (Real.sqrt x) else none

/-- `Lab_to_DIN99` with the domain checks of its numeric primitives made
explicit: each `np.log` / square-root application goes through the safe
variant, and any domain violation yields `none` instead of a finite triple. -/
noncomputable def Lab_to_DIN99_checked (Lab : ℝ × ℝ × ℝ) (k_E k_CH : ℝ) :
    Option (ℝ × ℝ × ℝ) :=
  let L := Lab.1
  let a := Lab.2.1
  let b := Lab.2.2
  let e := cos_16 * a + sin_16 * b
  let f := 0.7 * (-sin_16 * a + cos_16 * b)
  (safe_sqrt (e ^ 2 + f ^ 2)).bind fun G =>
    let h_ef := arctan2 f e
    (safe_log (1 + 0.045 * G)).bind fun lg =>
      let C_99 := lg / (0.045 * k_CH * k_E)
      let a_99 := C_99 * Real.cos h_ef
      let b_99 := C_99 * Real.sin h_ef
      (safe_log (1 + 0.0158 * L)).map fun lL =>
        (105.509 * lL * k_E, a_99, b_99)

/-- `DIN99_to_Lab` with the domain check of its only domain-restricted
numeric primitive (the square root) made explicit; it contains no logarithm,
and `exp`, `cos`, `sin` and `arctan2` are total. -/
noncomputable def DIN99_to_Lab_checked (Lab_99 : ℝ × ℝ × ℝ) (k_E k_CH : ℝ) :
    Option (ℝ × ℝ × ℝ) :=
  let L_99 := Lab_99.1
  let a_99 := Lab_99.2.1
  let b_99 := Lab_99.2.2
  let h_99 := arctan2 b_99 a_99
  (safe_sqrt (a_99 ^ 2 + b_99 ^ 2)).map fun C_99 =>
    let G := (Real.exp (0.045 * C_99 * k_CH * k_E) - 1) / 0.045
    let e := G * Real.cos h_99
    let f := G * Real.sin h_99
    ((Real.exp (L_99 * k_E / 105.509) - 1) / 0.0158,
     e * cos_16 - (f / 0.7) * sin_16,
     e * sin_16 + (f / 0.7) * cos_16)

/-- Claim C5: on any input whose lightness is out of domain
(`1 + 0.0158 * L ≤ 0`), `Lab_to_DIN99` hits the logarithm outside its
domain and surfaces a domain-error signal; it never silently clamps to a
finite in-domain triple. -/
theorem C5_out_of_domain_signals (L a b k_E k_CH : ℝ)
    (hdom : 1 + 0.0158 * L ≤ 0) :
    Lab_to_DIN99_checked (L, a, b) k_E k_CH = none := by
  simp only [Lab_to_DIN99_checked, safe_sqrt, safe_log]
  rw [if_pos (by positivity : (0:ℝ) ≤ (cos_16 * a + sin_16 * b) ^ 2
      + (0.7 * (-sin_16 * a + cos_16 * b)) ^ 2)]
  rw [Option.some_bind]
  rw [if_pos (by positivity : (0:ℝ) < 1 + 0.045 * Real.sqrt ((cos_16 * a + sin_16 * b) ^ 2
      + (0.7 * (-sin_16 * a + cos_16 * b)) ^ 2))]
  rw [Option.some_bind]
  rw [if_neg (by linarith : ¬ (0:ℝ) < 1 + 0.0158 * L)]
  rfl

/-- Witness for claim C5 at `L = -100`: `1 + 0.0158 * (-100) = -0.58 ≤ 0`
and the checked transform reports the domain error. -/
theorem C5_out_of_domain_signals_witness :
    (1:ℝ) + 0.0158 * (-100) ≤ 0 ∧
    Lab_to_DIN99_checked ((-100:ℝ), 5, 6) 1 1 = none :=
  ⟨by norm_num, C5_out_of_domain_signals (-100) 5 6 1 1 (by norm_num)⟩

/-- Claim C10: `DIN99_to_Lab` is total: for every real triple and all real
`k_E`, `k_CH` (zero and negative values included) every numeric primitive it
applies stays inside its domain — the square root only ever sees the
nonnegative sum `a99 ^ 2 + b99 ^ 2`, and it contains no logarithm — so the
checked evaluation always returns the plain result. -/
theorem C10_inverse_total (t : ℝ × ℝ × ℝ) (k_E k_CH : ℝ) :
    DIN99_to_Lab_checked t k_E k_CH = some (DIN99_to_Lab t k_E k_CH) := by
  simp only [DIN99_to_Lab_checked, DIN99_to_Lab, safe_sqrt]
  rw [if_pos (by positivity : (0:ℝ) ≤ t.2.1 ^ 2 + t.2.2 ^ 2)]
  rfl

/-- Modelled from the spec: `tsplit` from `colour.utilities` (whose source is
not among the provided files) splits an array whose last axis has length 3
into its three channel arrays; on a batch of triples these are the three
channelwise projections. -/
def tsplit (x : List (ℝ × ℝ × ℝ)) : List ℝ × List ℝ × List ℝ :=
  (x.map (fun t => t.1), x.map (fun t => t.2.1), x.map (fun t => t.2.2))

/-- Modelled from the spec: `tstack` from `colour.utilities` stacks three
channel arrays along a last axis of length 3, producing the batch of
triples. -/
def tstack (L a b : List ℝ) : List (ℝ × ℝ × ℝ) :=
  L.zipWith (fun x p => (x, p)) (a.zipWith Prod.mk b)

/-- The batch (vectorized) form of `Lab_to_DIN99`: every numpy expression of
the source acts elementwise on the channel arrays produced by `tsplit`, and
the result is reassembled with `tstack`. -/
noncomputable def Lab_to_DIN99_vec (Lab : List (ℝ × ℝ × ℝ)) (k_E k_CH : ℝ) :
    List (ℝ × ℝ × ℝ) :=
  let s := tsplit Lab
  let L := s.1
  let a := s.2.1
  let b := s.2.2
  let e := a.zipWith (fun ai bi => cos_16 * ai + sin_16 * bi) b
  let f := a.zipWith (fun ai bi => 0.7 * (-sin_16 * ai + cos_16 * bi)) b
  let G := e.zipWith (fun ei fi => Real.sqrt (ei ^ 2 + fi ^ 2)) f
  let h_ef := f.zipWith (fun fi ei => arctan2 fi ei) e
  let C_99 := G.map (fun Gi => Real.log (1 + 0.045 * Gi) / (0.045 * k_CH * k_E))
  let a_99 := C_99.zipWith (fun Ci hi => Ci * Real.cos hi) h_ef
  let b_99 := C_99.zipWith (fun Ci hi => Ci * Real.sin hi) h_ef
  let L_99 := L.map (fun Li => 105.509 * Real.log (1 + 0.0158 * Li) * k_E)
  tstack L_99 a_99 b_99

/-- The batch (vectorized) form of `DIN99_to_Lab`. -/
noncomputable def DIN99_to_Lab_vec (Lab_99 : List (ℝ × ℝ × ℝ)) (k_E k_CH : ℝ) :
    List (ℝ × ℝ × ℝ) :=
  let s := tsplit Lab_99
  let L_99 := s.1
  let a_99 := s.2.1
  let b_99 := s.2.2
  let h_99 := b_99.zipWith (fun bi ai => arctan2 bi ai) a_99
  let C_99 := a_99.zipWith (fun ai bi => Real.sqrt (ai ^ 2 + bi ^ 2)) b_99
  let G := C_99.map (fun Ci => (Real.exp (0.045 * Ci * k_CH * k_E) - 1) / 0.045)
  let e := G.zipWith (fun Gi hi => Gi * Real.cos hi) h_99
  let f := G.zipWith (fun Gi hi => Gi * Real.sin hi) h_99
  let a := e.zipWith (fun ei fi => ei * cos_16 - (fi / 0.7) * sin_16) f
  let b := e.zipWith (fun ei fi => ei * sin_16 + (fi / 0.7) * cos_16) f
  let L := L_99.map (fun Li => (Real.exp (Li * k_E / 105.509) - 1) / 0.0158)
  tstack L a b

lemma Lab_to_DIN99_vec_eq_map (xs : List (ℝ × ℝ × ℝ)) (k_E k_CH : ℝ) :
    Lab_to_DIN99_vec xs k_E k_CH = xs.map (fun x => Lab_to_DIN99 x k_E k_CH) := by
  induction xs with
  | nil => rfl
  | cons x xs ih =>
    simp only [Lab_to_DIN99_vec, tsplit, tstack] at ih ⊢
    simp only [List.map_cons, List.zipWith_cons_cons]
    rw [ih]
    rfl

lemma DIN99_to_Lab_vec_eq_map (xs : List (ℝ × ℝ × ℝ)) (k_E k_CH : ℝ) :
    DIN99_to_Lab_vec xs k_E k_CH = xs.map (fun x => DIN99_to_Lab x k_E k_CH) := by
  induction xs with
  | nil => rfl
  | cons x xs ih =>
    simp only [DIN99_to_Lab_vec, tsplit, tstack] at ih ⊢
    simp only [List.map_cons, List.zipWith_cons_cons]
    rw [ih]
    rfl

/-- Claim C9: applying either transform to a batch of triples preserves the
batch shape and yields, at every position, exactly the result of applying
the transform to that single triple alone — no cross-element coupling. -/
theorem C9_batch_independence (xs : List (ℝ × ℝ × ℝ)) (k_E k_CH : ℝ) :
    (Lab_to_DIN99_vec xs k_E k_CH).length = xs.length ∧
    (DIN99_to_Lab_vec xs k_E k_CH).length = xs.length ∧
    ∀ i : ℕ,
      (Lab_to_DIN99_vec xs k_E k_CH)[i]? = (xs[i]?).map (fun x => Lab_to_DIN99 x k_E k_CH) ∧
      (DIN99_to_Lab_vec xs k_E k_CH)[i]? = (xs[i]?).map (fun x => DIN99_to_Lab x k_E k_CH) := by
  rw [Lab_to_DIN99_vec_eq_map, DIN99_to_Lab_vec_eq_map]
  exact ⟨List.length_map _ _, List.length_map _ _,
    fun i => ⟨List.getElem?_map _ _ _, List.getElem?_map _ _ _⟩⟩

/-- Claim C2: in `DIN99_to_Lab` the output lightness is
`(exp (L99 * k_E / 105.509) - 1) / 0.0158`, while the forward direction
computes `L99 = 105.509 * log (1 + 0.0158 * L) * k_E`: the inverse lightness
expansion multiplies `L99` by `k_E` exactly as the forward compression
does. -/
theorem C2_lightness_formulas (t x : ℝ × ℝ × ℝ) (k_E k_CH : ℝ) :
    (DIN99_to_Lab t k_E k_CH).1 = (Real.exp (t.1 * k_E / 105.509) - 1) / 0.0158 ∧
    (Lab_to_DIN99 x k_E k_CH).1 = 105.509 * Real.log (1 + 0.0158 * x.1) * k_E :=
  ⟨rfl, rfl⟩

/-- Claim C4: for every fixed Lab triple and fixed `k_CH`, the `L99` channel
of `Lab_to_DIN99` is linear in `k_E`: the value at factor `k_E` is `k_E`
times the value at factor `1`. -/
theorem C4_L99_linear_in_kE (x : ℝ × ℝ × ℝ) (k_E k_CH : ℝ) :
    (Lab_to_DIN99 x k_E k_CH).1 = k_E * (Lab_to_DIN99 x 1 k_CH).1 := by
  simp only [Lab_to_DIN99]
  ring

/-- Claim C7: every achromatic Lab triple `(L, 0, 0)` maps to a DIN99 triple
whose `a99` and `b99` channels are exactly `0`, for every `k_E` and `k_CH`. -/
theorem C7_achromatic_zero_chroma (L k_E k_CH : ℝ) :
    (Lab_to_DIN99 (L, 0, 0) k_E k_CH).2.1 = 0 ∧
    (Lab_to_DIN99 (L, 0, 0) k_E k_CH).2.2 = 0 := by
  simp only [Lab_to_DIN99]
  norm_num

/-- Claim C8: `(0, 0, 0)` is a fixed point of both transforms for every
`k_E` and `k_CH`. -/
theorem C8_zero_fixed_point (k_E k_CH : ℝ) :
    Lab_to_DIN99 (0, 0, 0) k_E k_CH = (0, 0, 0) ∧
    DIN99_to_Lab (0, 0, 0) k_E k_CH = (0, 0, 0) := by
  refine ⟨?_, ?_⟩ <;>
    simp only [Lab_to_DIN99, DIN99_to_Lab] <;>
    norm_num

/-! Numeric bounds needed for the concrete reference scenario (claim C6).
The constants `cos_16` and `sin_16` are bounded by quartic Taylor bounds at
two degrees followed by three double-angle steps, and the two logarithm
evaluations are bounded through rational Taylor sums of `exp`. -/

lemma radians_two_bounds :
    (3.141592:ℝ) / 90 < radians 2 ∧ radians 2 < (3.141593:ℝ) / 90 := by
  have ht : radians 2 = Real.pi / 90 := by
    simp only [radians]
    ring
  constructor
  · rw [ht]
    have := Real.pi_gt_d6
    linarith
  · rw [ht]
    have := Real.pi_lt_d6
    linarith

lemma sin_rad2_bounds :
    (0.034899411:ℝ) < Real.sin (radians 2) ∧ Real.sin (radians 2) < 0.034899578 := by
  obtain ⟨hlo, hhi⟩ := radians_two_bounds
  have hx0 : 0 < radians 2 := lt_trans (by norm_num) hlo
  have habs : |radians 2| ≤ 1 := by
    rw [abs_of_pos hx0]
    linarith [hhi, show (3.141593:ℝ)/90 ≤ 1 by norm_num]
  have hb := abs_le.mp (Real.sin_bound habs)
  rw [abs_of_pos hx0] at hb
  have hx3hi : radians 2 ^ 3 < ((3.141593:ℝ)/90) ^ 3 :=
    pow_lt_pow_left₀ hhi hx0.le (by norm_num)
  have hx3lo : ((3.141592:ℝ)/90) ^ 3 < radians 2 ^ 3 :=
    pow_lt_pow_left₀ hlo (by norm_num) (by norm_num)
  have hx4hi : radians 2 ^ 4 < ((3.141593:ℝ)/90) ^ 4 :=
    pow_lt_pow_left₀ hhi hx0.le (by norm_num)
  constructor
  · nlinarith [hb.1, hx3hi, hx4hi, hlo]
  · nlinarith [hb.2, hx3lo, hx4hi, hhi]

lemma cos_rad2_bounds :
    (0.999390687:ℝ) < Real.cos (radians 2) ∧ Real.cos (radians 2) < 0.999390843 := by
  obtain ⟨hlo, hhi⟩ := radians_two_bounds
  have hx0 : 0 < radians 2 := lt_trans (by norm_num) hlo
  have habs : |radians 2| ≤ 1 := by
    rw [abs_of_pos hx0]
    linarith [hhi, show (3.141593:ℝ)/90 ≤ 1 by norm_num]
  have hb := abs_le.mp (Real.cos_bound habs)
  rw [abs_of_pos hx0] at hb
  have hx2hi : radians 2 ^ 2 < ((3.141593:ℝ)/90) ^ 2 :=
    pow_lt_pow_left₀ hhi hx0.le (by norm_num)
  have hx2lo : ((3.141592:ℝ)/90) ^ 2 < radians 2 ^ 2 :=
    pow_lt_pow_left₀ hlo (by norm_num) (by norm_num)
  have hx4hi : radians 2 ^ 4 < ((3.141593:ℝ)/90) ^ 4 :=
    pow_lt_pow_left₀ hhi hx0.le (by norm_num)
  constructor
  · nlinarith [hb.1, hx2hi, hx4hi]
  · nlinarith [hb.2, hx2lo, hx4hi]

lemma sin_rad4_bounds :
    (0.069756292:ℝ) < Real.sin (radians 4) ∧ Real.sin (radians 4) < 0.069756638 := by
  have h4 : radians 4 = 2 * radians 2 := by
    simp only [radians]
    ring
  obtain ⟨hs1, hs2⟩ := sin_rad2_bounds
  obtain ⟨hc1, hc2⟩ := cos_rad2_bounds
  rw [h4, Real.sin_two_mul]
  constructor
  · nlinarith [hs1, hs2, hc1, hc2]
  · nlinarith [hs1, hs2, hc1, hc2]

lemma cos_rad4_bounds :
    (0.997564038:ℝ) < Real.cos (radians 4) ∧ Real.cos (radians 4) < 0.997564063 := by
  have h4 : radians 4 = 2 * radians 2 := by
    simp only [radians]
    ring
  obtain ⟨hs1, hs2⟩ := sin_rad2_bounds
  have hpy := Real.sin_sq_add_cos_sq (radians 2)
  rw [h4, Real.cos_two_mul]
  constructor
  · nlinarith [hs1, hs2, hpy]
  · nlinarith [hs1, hs2, hpy]

lemma sin_rad8_bounds :
    (0.13917273:ℝ) < Real.sin (radians 8) ∧ Real.sin (radians 8) < 0.13917344 := by
  have h8 : radians 8 = 2 * radians 4 := by
    simp only [radians]
    ring
  obtain ⟨hs1, hs2⟩ := sin_rad4_bounds
  obtain ⟨hc1, hc2⟩ := cos_rad4_bounds
  rw [h8, Real.sin_two_mul]
  constructor
  · nlinarith [hs1, hs2, hc1, hc2]
  · nlinarith [hs1, hs2, hc1, hc2]

lemma cos_rad8_bounds :
    (0.99026802:ℝ) < Real.cos (radians 8) ∧ Real.cos (radians 8) < 0.99026812 := by
  have h8 : radians 8 = 2 * radians 4 := by
    simp only [radians]
    ring
  obtain ⟨hs1, hs2⟩ := sin_rad4_bounds
  have hpy := Real.sin_sq_add_cos_sq (radians 4)
  rw [h8, Real.cos_two_mul]
  constructor
  · nlinarith [hs1, hs2, hpy]
  · nlinarith [hs1, hs2, hpy]

lemma sin_16_bounds : (0.2756366:ℝ) < sin_16 ∧ sin_16 < 0.27563805 := by
  have h16 : radians 16 = 2 * radians 8 := by
    simp only [radians]
    ring
  obtain ⟨hs1, hs2⟩ := sin_rad8_bounds
  obtain ⟨hc1, hc2⟩ := cos_rad8_bounds
  rw [sin_16, h16, Real.sin_two_mul]
  constructor
  · nlinarith [hs1, hs2, hc1, hc2]
  · nlinarith [hs1, hs2, hc1, hc2]

lemma cos_16_bounds : (0.9612615:ℝ) < cos_16 ∧ cos_16 < 0.96126191 := by
  have h16 : radians 16 = 2 * radians 8 := by
    simp only [radians]
    ring
  obtain ⟨hs1, hs2⟩ := sin_rad8_bounds
  have hpy := Real.sin_sq_add_cos_sq (radians 8)
  rw [cos_16, h16, Real.cos_two_mul]
  constructor
  · nlinarith [hs1, hs2, hpy]
  · nlinarith [hs1, hs2, hpy]

lemma exp_lo_chroma : Real.exp 0.7320189 < 2.0792745775 := by
  have habs : |(0.7320189:ℝ)| = 0.7320189 := abs_of_pos (by norm_num)
  have hb := abs_le.mp (@Real.exp_bound 0.7320189 (by rw [habs]; norm_num) 12 (by norm_num))
  rw [habs] at hb
  norm_num [Finset.sum_range_succ, Nat.factorial] at hb
  linarith [hb.1, hb.2]

lemma exp_hi_chroma : (2.079275383:ℝ) < Real.exp 0.7320199 := by
  have habs : |(0.7320199:ℝ)| = 0.7320199 := abs_of_pos (by norm_num)
  have hb := abs_le.mp (@Real.exp_bound 0.7320199 (by rw [habs]; norm_num) 12 (by norm_num))
  rw [habs] at hb
  norm_num [Finset.sum_range_succ, Nat.factorial] at hb
  linarith [hb.1, hb.2]

lemma exp_lo_light : Real.exp 0.47011166 < 1.60017293978 := by
  have habs : |(0.47011166:ℝ)| = 0.47011166 := abs_of_pos (by norm_num)
  have hb := abs_le.mp (@Real.exp_bound 0.47011166 (by rw [habs]; norm_num) 10 (by norm_num))
  rw [habs] at hb
  norm_num [Finset.sum_range_succ, Nat.factorial] at hb
  linarith [hb.1, hb.2]

lemma exp_hi_light : (1.60017293978:ℝ) < Real.exp 0.47011176 := by
  have habs : |(0.47011176:ℝ)| = 0.47011176 := abs_of_pos (by norm_num)
  have hb := abs_le.mp (@Real.exp_bound 0.47011176 (by rw [habs]; norm_num) 10 (by norm_num))
  rw [habs] at hb
  norm_num [Finset.sum_range_succ, Nat.factorial] at hb
  linarith [hb.1, hb.2]

lemma log_chroma_bounds (p : ℝ) (h1 : (2.0792745775:ℝ) ≤ p) (h2 : p ≤ 2.079275383) :
    (0.7320189:ℝ) < Real.log p ∧ Real.log p < 0.7320199 := by
  have hp : (0:ℝ) < p := by linarith
  constructor
  · rw [Real.lt_log_iff_exp_lt hp]
    linarith [exp_lo_chroma]
  · rw [Real.log_lt_iff_lt_exp hp]
    linarith [exp_hi_chroma]

lemma log_light_bounds :
    (0.47011166:ℝ) < Real.log 1.60017293978 ∧
    Real.log 1.60017293978 < 0.47011176 := by
  constructor
  · rw [Real.lt_log_iff_exp_lt (by norm_num)]
    exact exp_lo_light
  · rw [Real.log_lt_iff_lt_exp (by norm_num)]
    exact exp_hi_light

set_option maxHeartbeats 1000000 in
/-- Interval bounds for the chromatic output channels of the forward
transform at the reference Lab input, with default factors. -/
lemma a99_b99_bounds :
    (-16.23155729:ℝ) < (Lab_to_DIN99 ((37.98562910:ℝ), -23.62907688, -4.41746615) 1 1).2.1 ∧
    (Lab_to_DIN99 ((37.98562910:ℝ), -23.62907688, -4.41746615) 1 1).2.1 < -16.23135729 ∧
    (1.07608123:ℝ) < (Lab_to_DIN99 ((37.98562910:ℝ), -23.62907688, -4.41746615) 1 1).2.2 ∧
    (Lab_to_DIN99 ((37.98562910:ℝ), -23.62907688, -4.41746615) 1 1).2.2 < 1.07628123 := by
  obtain ⟨hc1, hc2⟩ := cos_16_bounds
  obtain ⟨hs1, hs2⟩ := sin_16_bounds
  simp only [Lab_to_DIN99]
  set e := cos_16 * (-23.62907688:ℝ) + sin_16 * (-4.41746615:ℝ) with he
  set f := (0.7:ℝ) * (-sin_16 * (-23.62907688:ℝ) + cos_16 * (-4.41746615:ℝ)) with hf
  set G := Real.sqrt (e ^ 2 + f ^ 2) with hG
  set C := Real.log (1 + 0.045 * G) / (0.045 * 1 * 1) with hC
  have he1 : (-23.9313534:ℝ) < e := by
    rw [he]
    linarith [hc1, hc2, hs1, hs2]
  have he2 : e < (-23.9313372:ℝ) := by
    rw [he]
    linarith [hc1, hc2, hs1, hs2]
  have hf1 : (1.5866875:ℝ) < f := by
    rw [hf]
    linarith [hc1, hc2, hs1, hs2]
  have hf2 : f < (1.5867128:ℝ) := by
    rw [hf]
    linarith [hc1, hc2, hs1, hs2]
  have hGl : (23.9838795:ℝ) < G := by
    rw [hG, Real.lt_sqrt (by norm_num)]
    nlinarith [he1, he2, hf1, hf2, sq_nonneg (e + 23.9313372), sq_nonneg (f - 1.5866875)]
  have hGh : G < (23.9838974:ℝ) := by
    rw [hG, Real.sqrt_lt' (by norm_num)]
    nlinarith [he1, he2, hf1, hf2]
  have hGpos : (0:ℝ) < G := by linarith
  obtain ⟨hq1, hq2⟩ := log_chroma_bounds (1 + 0.045 * G) (by linarith) (by linarith)
  have hCe : C * (0.045 * 1 * 1) = Real.log (1 + 0.045 * G) := by
    rw [hC]
    field_simp
  have hC1 : (16.267086:ℝ) < C := by linarith [hCe, hq1]
  have hC2 : C < (16.2671089:ℝ) := by linarith [hCe, hq2]
  have hcos : G * Real.cos (arctan2 f e) = e := by
    rw [hG]
    exact sqrt_mul_cos_arctan2 f e
  have hsin : G * Real.sin (arctan2 f e) = f := by
    rw [hG]
    exact sqrt_mul_sin_arctan2 f e
  have key : C * Real.cos (arctan2 f e) * G = C * e := by
    calc C * Real.cos (arctan2 f e) * G
        = C * (G * Real.cos (arctan2 f e)) := by ring
      _ = C * e := by rw [hcos]
  have keyb : C * Real.sin (arctan2 f e) * G = C * f := by
    calc C * Real.sin (arctan2 f e) * G
        = C * (G * Real.sin (arctan2 f e)) := by ring
      _ = C * f := by rw [hsin]
  clear_value e f G C
  clear he hf hG hC hCe hq1 hq2 hcos hsin hc1 hc2 hs1 hs2
  refine ⟨?_, ?_, ?_, ?_⟩
  · have h1 : (16.2671089:ℝ) * (-23.9313534) < C * e := by
      nlinarith [hC1, hC2, he1, he2]
    have h2 : (-16.23155729:ℝ) * G < C * e := by
      linarith [h1, hGl]
    have h3 : (-16.23155729:ℝ) * G < C * Real.cos (arctan2 f e) * G := by
      rw [key]
      exact h2
    exact lt_of_mul_lt_mul_right h3 hGpos.le
  · have h1u : C * e < (16.267086:ℝ) * (-23.9313372) := by
      nlinarith [hC1, hC2, he1, he2]
    have h2u : C * e < (-16.23135729:ℝ) * G := by
      linarith [h1u, hGh]
    have h3u : C * Real.cos (arctan2 f e) * G < (-16.23135729:ℝ) * G := by
      rw [key]
      exact h2u
    exact lt_of_mul_lt_mul_right h3u hGpos.le
  · have h1b : (16.267086:ℝ) * 1.5866875 < C * f := by
      nlinarith [hC1, hC2, hf1, hf2]
    have h2b : (1.07608123:ℝ) * G < C * f := by
      linarith [h1b, hGh]
    have h3b : (1.07608123:ℝ) * G < C * Real.sin (arctan2 f e) * G := by
      rw [keyb]
      exact h2b
    exact lt_of_mul_lt_mul_right h3b hGpos.le
  · have h1c : C * f < (16.2671089:ℝ) * 1.5867128 := by
      nlinarith [hC1, hC2, hf1, hf2]
    have h2c : C * f < (1.07628123:ℝ) * G := by
      linarith [h1c, hGl]
    have h3c : C * Real.sin (arctan2 f e) * G < (1.07628123:ℝ) * G := by
      rw [keyb]
      exact h2c
    exact lt_of_mul_lt_mul_right h3c hGpos.le

/-- Claim C6: at the reference Lab input `(37.98562910, -23.62907688,
-4.41746615)` with default `k_E = k_CH = 1`, the forward transform returns
the reference DIN99 triple `(49.60101649, -16.23145729, 1.07618123)` to
within `10 ^ (-4)` per channel, and the inverse applied to that output
reproduces the original Lab triple exactly (hence within `10 ^ (-6)`). -/
theorem C6_reference_scenario :
    |(Lab_to_DIN99 ((37.98562910:ℝ), -23.62907688, -4.41746615) 1 1).1 - 49.60101649| < 0.0001 ∧
    |(Lab_to_DIN99 ((37.98562910:ℝ), -23.62907688, -4.41746615) 1 1).2.1 - (-16.23145729)| < 0.0001 ∧
    |(Lab_to_DIN99 ((37.98562910:ℝ), -23.62907688, -4.41746615) 1 1).2.2 - 1.07618123| < 0.0001 ∧
    DIN99_to_Lab (Lab_to_DIN99 ((37.98562910:ℝ), -23.62907688, -4.41746615) 1 1) 1 1
      = ((37.98562910:ℝ), -23.62907688, -4.41746615) := by
  obtain ⟨ha1, ha2, hb1, hb2⟩ := a99_b99_bounds
  have hL : (Lab_to_DIN99 ((37.98562910:ℝ), -23.62907688, -4.41746615) 1 1).1
      = 105.509 * Real.log 1.60017293978 * 1 := by
    show (105.509:ℝ) * Real.log (1 + 0.0158 * 37.98562910) * 1 = _
    norm_num
  refine ⟨?_, ?_, ?_, roundtrip_kE_one _ _ _ _ (by norm_num) (by norm_num)⟩
  · rw [hL, abs_lt]
    obtain ⟨hl1, hl2⟩ := log_light_bounds
    constructor <;> linarith
  · rw [abs_lt]
    constructor <;> linarith [ha1, ha2]
  · rw [abs_lt]
    constructor <;> linarith [hb1, hb2]
